import Mathlib

/-!
# RBAC_System_BACK: the five routes of `index.js` over the `User` schema

A shallow embedding of `src/index.js` and `src/models/user.js`.  The document
store is a pair of lists (users, images); every route handler is a pure
function from the store and the request to a response and the next store.
What the handlers obtain from their surroundings (clock, generated
identifiers, the bcrypt salt, the signing secret) is passed in as `Env`; what
they obtain from the platform and their libraries and is not fixed by the two
source files (`String.prototype.toLowerCase`, bcrypt, mongoose's treatment of
values that are not strings) is passed in as `Lib`.
-/

namespace RBAC

/-! ## Strings: `trim` -/

/-- Code points that `String.prototype.trim` strips (WhiteSpace and LineTerminator). -/
def whiteSpaceCodes : List Nat :=
  [9, 10, 11, 12, 13, 32, 160, 5760, 8192, 8193, 8194, 8195, 8196, 8197, 8198,
   8199, 8200, 8201, 8202, 8232, 8233, 8239, 8287, 12288, 65279]

/-- Whether `trim` strips this character. -/
def isWhiteSpace (c : Char) : Bool :=
  whiteSpaceCodes.contains c.toNat

/-- Model of `String.prototype.trim`: strip white space at both ends. -/
def trim (s : String) : String :=
  ⟨((s.data.dropWhile isWhiteSpace).reverse.dropWhile isWhiteSpace).reverse⟩

/-! ## Data model -/

/-- A value of a request body: what `express.json()` parses, and what multer
builds from the fields of a multipart form (strings, and arrays and objects of
them for repeated and bracketed field names). -/
inductive Json where
  | null
  | bool (b : Bool)
  | num (text : String)
  | str (s : String)
  | arr (items : List Json)
  | obj (fields : List (String × Json))

/-- The string a body field holds, when it is present and `typeof` gives
`'string'`. -/
def asString : Option Json → Option String
  | some (.str s) => some s
  | _ => none

/-- A stored document of the `User` model (`userSchema`, with `timestamps: true`). -/
structure User where
  _id : String
  username : String
  email : String
  password : String
  role : String
  photo : Option String
  uuid : String
  createdAt : Nat
  updatedAt : Nat
  __v : Nat
deriving DecidableEq, Repr

/-- The `enum` of `userSchema.role`. -/
def roleEnum : List String := ["admin", "user", "manager"]

/-- The object multer leaves in `req.file`; `content` is what it wrote at `path`. -/
structure File where
  originalname : String
  mimetype : String
  path : String
  content : List Nat
deriving DecidableEq, Repr

/-- The `filename` callback of the disk storage: the original file name. -/
def File.filename (f : File) : String :=
  f.originalname

/-- Modelled from the spec: the Image record of `./models/Photo`, which is not
among the source files: `userUuid`, `imageData` and `contentType`. -/
structure Image where
  userUuid : String
  imageData : List Nat
  contentType : String
deriving DecidableEq, Repr

/-- The two collections. -/
structure Store where
  users : List User
  images : List Image
deriving DecidableEq, Repr

/-- What a handler reads from its surroundings while serving one request. -/
structure Env where
  /-- The clock, `Date.now()`, in milliseconds. -/
  now : Nat
  /-- The `_id` mongoose generates for a new document. -/
  objectId : String
  /-- The result of `uuidv4()`. -/
  uuid : String
  /-- The random part of the salt drawn by `bcryptjs.hash`. -/
  salt : String
  /-- The value of `process.env.JWT_SECRET`, when the variable is set. -/
  secret : Option String
deriving DecidableEq, Repr

/-- What a `findOne` resolves to: the query throws, finds nothing, or finds a
document. -/
inductive Lookup where
  | threw
  | nothing
  | found (u : User)
deriving DecidableEq, Repr

/-- Behaviour of the platform and the libraries that the two source files do
not fix, with the properties of it that the proofs rely on. -/
structure Lib where
  /-- `String.prototype.toLowerCase`, the `lowercase: true` setter. -/
  toLowerCase : String → String
  /-- Lowercasing a lowercased string changes nothing: every character of a
  lowercased string is its own lowercase. -/
  toLowerCase_idem : ∀ s, toLowerCase (toLowerCase s) = toLowerCase s
  /-- Lowercasing commutes with `trim`: white space has no case, and lowercasing
  neither turns a character into white space nor looks past the white space
  at the two ends. -/
  toLowerCase_trim : ∀ s, toLowerCase (trim s) = trim (toLowerCase s)
  /-- The string mongoose casts a value that is not a string to for a `String`
  path, or nothing when the cast fails. -/
  castOther : Json → Option String
  /-- The string `bcryptjs.hash(password, rounds)` resolves to, given the salt it drew. -/
  hash : String → Nat → String → String
  /-- A bcrypt hash string has 60 characters. -/
  hash_length : ∀ pw rounds salt, (hash pw rounds salt).length = 60
  /-- The hash is one-way, as the spec has it ("stored only as a one-way salted
  hash, never plaintext"): no password is its own hash. -/
  hash_ne : ∀ pw rounds salt, hash pw rounds salt ≠ pw
  /-- The boolean `bcryptjs.compare(password, hash)` resolves to. -/
  compare : String → String → Bool
  /-- What `User.findOne({ email })` resolves to when the filter value is
  neither a string nor `null`: a number, a boolean, an array, or an object that
  mongoose reads as query operators or fails to cast. -/
  findOneOther : Json → List User → Lookup
  /-- A document a query finds is a document of the collection. -/
  findOneOther_mem : ∀ v users u, findOneOther v users = .found u → u ∈ users
  /-- Whether the validators of the Image schema, which is not among the
  source files, accept the document. -/
  imageAccepts : Image → Bool

/-- The setters of `userSchema.email` (`lowercase: true`, then `trim: true`),
which mongoose applies to a string being stored and to a string in a query
filter alike. -/
def normEmail (L : Lib) (e : String) : String :=
  trim (L.toLowerCase e)

/-- The string mongoose casts a body field to for a `String` path: the string
itself, the cast of another value, nothing for an absent field or a failed
cast. -/
def castField (L : Lib) (v : Option Json) : Option String :=
  match asString v with
  | some s => some s
  | none => v.bind L.castOther

/-! ## JSON bodies -/

/-- A decoded JSON Web Token. -/
structure Jwt where
  payload : List (String × String)
  secret : String
  iat : Nat
  exp : Nat
deriving DecidableEq, Repr

/-- A scalar of a response body. -/
inductive Val where
  | null
  | str (s : String)
  | num (n : Nat)
  | date (t : Nat)
  | bytes (b : List Nat)
  | jwt (t : Jwt)
deriving DecidableEq, Repr

/-- A flat JSON object. -/
abbrev Doc := List (String × Val)

/-- The value of a top-level key of a response body. -/
inductive Field where
  | val (v : Val)
  | doc (d : Doc)
  | docs (ds : List Doc)
deriving DecidableEq, Repr

/-- A response body: a JSON object. -/
abbrev Body := List (String × Field)

/-- What `res.status(..).json(..)` sends. -/
structure Response where
  status : Nat
  body : Body
deriving DecidableEq, Repr

/-- Whether the flat object has the key. -/
def Doc.hasKey (d : Doc) (k : String) : Bool :=
  d.any (fun p => p.1 == k)

/-- The value of the key in the flat object. -/
def Doc.get (d : Doc) (k : String) : Option Val :=
  (d.find? (fun p => p.1 == k)).map (fun p => p.2)

/-- Whether the key occurs anywhere in the body, at the top or in a nested object. -/
def Body.hasKey (b : Body) (k : String) : Bool :=
  b.any (fun p => p.1 == k ||
    match p.2 with
    | .val _ => false
    | .doc d => d.hasKey k
    | .docs ds => ds.any (fun d => d.hasKey k))

/-- The value of a top-level key of the body. -/
def Body.get (b : Body) (k : String) : Option Field :=
  (b.find? (fun p => p.1 == k)).map (fun p => p.2)

/-- The body with a single `message`, as every error answer has. -/
def message (m : String) : Body :=
  [("message", .val (.str m))]

/-- `null` for an unset photo, the string otherwise. -/
def optStr : Option String → Val
  | none => .null
  | some s => .str s

/-- What `JSON.stringify` makes of a user document. -/
def User.toJSON (u : User) : Doc :=
  [("_id", .str u._id), ("username", .str u.username), ("email", .str u.email),
   ("password", .str u.password), ("role", .str u.role), ("photo", optStr u.photo),
   ("uuid", .str u.uuid), ("createdAt", .date u.createdAt),
   ("updatedAt", .date u.updatedAt), ("__v", .num u.__v)]

/-- The projection `.select('-password')`: every field but the named one. -/
def Doc.exclude (d : Doc) (k : String) : Doc :=
  d.filter (fun p => p.1 != k)

/-- What `JSON.stringify` makes of an image document. -/
def Image.toJSON (i : Image) : Doc :=
  [("userUuid", .str i.userUuid), ("imageData", .bytes i.imageData),
   ("contentType", .str i.contentType)]

/-! ## Requests -/

/-- `POST /register`: the fields read from `req.body`, each absent or some
value, and `req.file`. -/
structure RegisterReq where
  username : Option Json
  email : Option Json
  password : Option Json
  role : Option Json
  file : Option File

/-- `POST /login`: the two fields read from `req.body`, each absent or some
JSON value. -/
structure LoginReq where
  email : Option Json
  password : Option Json

/-- `PUT /upload-photo`: `req.file` and the `user-email` header. -/
structure PhotoReq where
  file : Option File
  userEmail : Option String
deriving DecidableEq, Repr

/-- `POST /users/:uuid/images`: the route parameter and `req.file`. -/
structure ImageReq where
  uuid : String
  file : Option File
deriving DecidableEq, Repr

/-! ## Queries and writes on the `User` collection -/

/-- `User.findOne({ email })`: for a string, the first document whose email is
the string after the schema setters have run on it; for an absent value, which
the driver sends as `null`, and for `null`, nothing, every stored user having
an email; for any other value, what mongoose makes of it. -/
def findOneByEmail (L : Lib) (users : List User) (email : Option Json) : Lookup :=
  match email with
  | none => .nothing
  | some .null => .nothing
  | some (.str e) =>
    match users.find? (fun u => u.email == normEmail L e) with
    | some u => .found u
    | none => .nothing
  | some v => L.findOneOther v users

/-- `User.findOne({ uuid })`, for the string of the route parameter. -/
def findOneByUuid (users : List User) (uuid : String) : Option User :=
  users.find? (fun u => u.uuid == uuid)

/-- The role of a new document: the default `'user'` for an absent field, the
cast of the field otherwise. -/
def roleField (L : Lib) (role : Option Json) : Option String :=
  match role with
  | none => some "user"
  | some v => castField L (some v)

/-- `new User({ username, email, password, role, photo })` followed by the
validation of `save()`: the fields are cast, setters run, defaults are filled
in, and the `required` and `enum` validators decide whether there is a
document to insert. -/
def newUser (L : Lib) (env : Env) (username email : Option Json) (password : String)
    (role : Option Json) (photo : Option String) : Option User :=
  match castField L username, castField L email, roleField L role with
  | some un, some em, some r =>
    if trim un != "" && normEmail L em != "" && password != "" &&
        roleEnum.contains r && env.uuid != "" then
      some { _id := env.objectId, username := trim un, email := normEmail L em,
             password := password, role := r, photo := photo, uuid := env.uuid,
             createdAt := env.now, updatedAt := env.now, __v := 0 }
    else none
  | _, _, _ => none

/-- The insert of `save()`: refused when the primary key or one of the two
`unique` indexes (email, uuid) already holds the value. -/
def insertUser (users : List User) (u : User) : Option (List User) :=
  if users.any (fun v => v._id == u._id || v.email == u.email || v.uuid == u.uuid) then none
  else some (users ++ [u])

/-- `User.findOneAndUpdate({ email }, { $set: { photo } }, { new: true })` for
a filter value the setters have already run on: the first matching document
gets the photo and, the schema having `timestamps`, a new `updatedAt`; the
other documents stay as they are.  The result is the document as updated
(or nothing) and the collection after the write. -/
def findOneAndUpdate (now : Nat) (email photo : String) : List User → Option User × List User
  | [] => (none, [])
  | u :: us =>
    if u.email == email then
      let v := { u with photo := some photo, updatedAt := now }
      (some v, v :: us)
    else
      let r := findOneAndUpdate now email photo us
      (r.1, u :: r.2)

/-! ## Token generation -/

/-- Seconds in the `'1h'` of `expiresIn`. -/
def oneHour : Nat := 60 * 60

/-- `jwt.sign(payload, secret, { expiresIn })`, as the token decodes; it throws
when the secret has no value. -/
def jwtSign (payload : List (String × String)) (secret : Option String)
    (expiresIn now : Nat) : Option Jwt :=
  match secret with
  | none => none
  | some k =>
    if k == "" then none
    else some { payload := payload, secret := k, iat := now / 1000,
                exp := now / 1000 + expiresIn }

/-- `generateToken(user)`. -/
def generateToken (env : Env) (user : User) : Option Jwt :=
  jwtSign [("uuid", user._id), ("username", user.username), ("role", user.role)]
    env.secret oneHour env.now

/-! ## The five routes -/

/-- `POST /register`. -/
def register (L : Lib) (env : Env) (s : Store) (req : RegisterReq) : Response × Store :=
  let photo := req.file.map (fun f => f.path)
  match findOneByEmail L s.users req.email with
  | .threw => (⟨500, message "Server error"⟩, s)
  | .found _ => (⟨400, message "Email already in use."⟩, s)
  | .nothing =>
    match asString req.password with
    | none => (⟨500, message "Server error"⟩, s)
    | some pw =>
      let hashedPassword := L.hash pw 10 env.salt
      match newUser L env req.username req.email hashedPassword req.role photo with
      | none => (⟨500, message "Server error"⟩, s)
      | some u =>
        match insertUser s.users u with
        | none => (⟨500, message "Server error"⟩, s)
        | some users => (⟨201, message "User registered successfully"⟩, { s with users := users })

/-- `POST /login`. -/
def login (L : Lib) (env : Env) (s : Store) (req : LoginReq) : Response × Store :=
  match findOneByEmail L s.users req.email with
  | .threw => (⟨500, message "Server error"⟩, s)
  | .nothing => (⟨400, message "User not found"⟩, s)
  | .found user =>
    match asString req.password with
    | none => (⟨500, message "Server error"⟩, s)
    | some pw =>
      if L.compare pw user.password then
        match generateToken env user with
        | none => (⟨500, message "Server error"⟩, s)
        | some token =>
          (⟨200, [("message", .val (.str "Login successful")),
                  ("token", .val (.jwt token)),
                  ("role", .val (.str user.role)),
                  ("user", .doc [("username", .str user.username), ("email", .str user.email),
                                 ("photo", optStr user.photo), ("uuid", .str user.uuid)])]⟩, s)
      else (⟨400, message "Invalid credentials"⟩, s)

/-- `GET /users`. -/
def getUsers (s : Store) : Response × Store :=
  (⟨200, [("users", .docs (s.users.map (fun u => u.toJSON.exclude "password")))]⟩, s)

/-- `PUT /upload-photo`. -/
def uploadPhoto (L : Lib) (env : Env) (s : Store) (req : PhotoReq) : Response × Store :=
  match req.file with
  | none => (⟨400, message "No photo uploaded."⟩, s)
  | some file =>
    match req.userEmail with
    | none => (⟨400, message "User email is missing."⟩, s)
    | some email =>
      if email == "" then (⟨400, message "User email is missing."⟩, s)
      else
        match findOneAndUpdate env.now (normEmail L email) ("uploads/" ++ file.filename)
            s.users with
        | (none, _) => (⟨404, message "User not found."⟩, s)
        | (some user, users) =>
          (⟨200, [("message", .val (.str "Profile photo uploaded successfully")),
                  ("user", .doc user.toJSON)]⟩, { s with users := users })

/-- `POST /users/:uuid/images`. -/
def uploadImage (L : Lib) (s : Store) (req : ImageReq) : Response × Store :=
  match req.file with
  | none => (⟨400, message "No image uploaded"⟩, s)
  | some file =>
    match findOneByUuid s.users req.uuid with
    | none => (⟨404, message "User not found"⟩, s)
    | some _ =>
      let image : Image :=
        { userUuid := req.uuid, imageData := file.content, contentType := file.mimetype }
      if L.imageAccepts image then
        (⟨201, [("message", .val (.str "Image uploaded successfully")),
                ("image", .doc image.toJSON)]⟩, { s with images := s.images ++ [image] })
      else (⟨500, message "Internal server error"⟩, s)

/-! ## Sequences of requests -/

/-- One request to one of the five routes, with what its handler reads from
its surroundings. -/
inductive Op where
  | register (env : Env) (req : RegisterReq)
  | login (env : Env) (req : LoginReq)
  | getUsers
  | uploadPhoto (env : Env) (req : PhotoReq)
  | uploadImage (req : ImageReq)

/-- Handle one request. -/
def handle (L : Lib) (s : Store) : Op → Response × Store
  | .register env req => register L env s req
  | .login env req => login L env s req
  | .getUsers => getUsers s
  | .uploadPhoto env req => uploadPhoto L env s req
  | .uploadImage req => uploadImage L s req

/-- The store after the requests have been handled one at a time. -/
def run (L : Lib) (s : Store) (ops : List Op) : Store :=
  ops.foldl (fun st op => (handle L st op).2) s

/-- The empty store. -/
def Store.empty : Store := { users := [], images := [] }

/-- The document a registration inserts when its username `un`, email `e` and
password `pw` are strings that pass validation. -/
def registered (L : Lib) (env : Env) (req : RegisterReq) (un e pw : String) : User :=
  { _id := env.objectId, username := trim un, email := normEmail L e,
    password := L.hash pw 10 env.salt, role := (roleField L req.role).getD "user",
    photo := req.file.map (fun f => f.path), uuid := env.uuid,
    createdAt := env.now, updatedAt := env.now, __v := 0 }

/-! ## One admissible library, a store and surroundings -/

/-- Lowercasing of the basic Latin letters, which is `toLowerCase` on ASCII
strings. -/
def asciiLower (s : String) : String :=
  ⟨s.data.map Char.toLower⟩

/-- A stand-in for the bcrypt hash: a first character that is not the first of
the password, then salt and password, padded or cut to 60 characters in all. -/
def sampleHash (pw : String) (_rounds : Nat) (salt : String) : String :=
  ⟨(if pw.data.head? = some '$' then '#' else '$') ::
    (salt.data ++ pw.data ++ List.replicate 59 '.').take 59⟩

/-- The stand-in for `compare`: hash again with the salt read off the stored
string. -/
def sampleCompare (pw hash : String) : Bool :=
  sampleHash pw 10 ⟨(hash.data.drop 1).take 22⟩ == hash

/-- A cast of values that are not strings: a number or boolean becomes its
text, an object with a string `_id` that is not empty becomes that string,
and every other value fails to cast. -/
def sampleCast : Json → Option String
  | .num text => some text
  | .bool true => some "true"
  | .bool false => some "false"
  | .obj fields =>
    match fields.lookup "_id" with
    | some (.str s) => if s == "" then none else some s
    | _ => none
  | _ => none

/-- A lookup for filter values that are neither strings nor `null`: the
operator object `{ $ne: null }` finds the first stored user, an array fails to
cast, and every other value finds nothing. -/
def sampleFindOther : Json → List User → Lookup
  | .obj [("$ne", .null)], u :: _ => .found u
  | .arr _, _ => .threw
  | _, _ => .nothing

/-- One admissible library: ASCII lowercasing, the stand-in hash, and the two
stand-ins for values that are not strings. -/
def sampleLib : Lib :=
  have hsmall : ∀ n : Nat, n < 55296 → (Char.ofNat n).toNat = n := by
    intro n h
    have hv : n.isValidChar := Or.inl h
    simp [Char.ofNat, hv, Char.ofNatAux, Char.toNat]
    rfl
  have hcases : ∀ c : Char, (c.toLower = c ∧ ¬ (65 ≤ c.toNat ∧ c.toNat ≤ 90)) ∨
      ((65 ≤ c.toNat ∧ c.toNat ≤ 90) ∧ c.toLower.toNat = c.toNat + 32) := by
    intro c
    by_cases h : c.toNat ≥ 65 ∧ c.toNat ≤ 90
    · right
      refine ⟨h, ?_⟩
      unfold Char.toLower
      simp only [h, and_self, if_true]
      exact hsmall _ (by omega)
    · left
      refine ⟨?_, h⟩
      unfold Char.toLower
      simp only [h, if_false]
  have hletter : ∀ n : Nat, 65 ≤ n ∧ n ≤ 122 → whiteSpaceCodes.contains n = false := by
    intro n h
    simp only [whiteSpaceCodes, List.contains_eq_any_beq, List.any_cons, List.any_nil,
      Bool.or_false, Bool.or_eq_false_iff, beq_eq_false_iff_ne, ne_eq]
    omega
  have hws : isWhiteSpace ∘ Char.toLower = isWhiteSpace := by
    funext c
    show isWhiteSpace c.toLower = isWhiteSpace c
    rcases hcases c with ⟨h, _⟩ | ⟨h, h32⟩
    · rw [h]
    · unfold isWhiteSpace
      rw [hletter c.toNat (by omega), hletter c.toLower.toNat (by omega)]
  { toLowerCase := asciiLower
    toLowerCase_idem := by
      intro s
      apply String.ext
      simp only [asciiLower, List.map_map]
      apply List.map_congr_left
      intro c _
      show c.toLower.toLower = c.toLower
      rcases hcases c with ⟨h, _⟩ | ⟨h, h32⟩
      · rw [h, h]
      · rcases hcases c.toLower with ⟨h2, _⟩ | ⟨h2, _⟩
        · exact h2
        · omega
    toLowerCase_trim := by
      intro s
      apply String.ext
      simp only [trim, asciiLower, List.dropWhile_map, hws, ← List.map_reverse]
    castOther := sampleCast
    hash := sampleHash
    hash_length := by
      intro pw rounds salt
      show (List.take 59 (salt.data ++ pw.data ++ List.replicate 59 '.')).length + 1 = 60
      rw [List.length_take, List.length_append, List.length_replicate]
      omega
    hash_ne := by
      intro pw rounds salt h
      have hd := congrArg (fun t : String => t.data.head?) h
      simp only [sampleHash, List.head?_cons] at hd
      by_cases hp : pw.data.head? = some '$'
      · rw [if_pos hp, hp] at hd
        exact absurd hd (by decide)
      · rw [if_neg hp] at hd
        exact hp hd.symm
    compare := sampleCompare
    findOneOther := sampleFindOther
    findOneOther_mem := by
      intro v users u h
      unfold sampleFindOther at h
      split at h
      · simp only [Lookup.found.injEq] at h
        rw [← h]
        exact List.mem_cons_self _ _
      · cases h
      · cases h
    imageAccepts := fun _ => true }

/-- A stored user with a 24-digit `_id` and a version-4 `uuid`. -/
def alice : User :=
  { _id := "64b7f0c2a1d3e4f5a6b7c8d9", username := "alice", email := "alice@example.com",
    password := sampleHash "secret" 10 "0123456789abcdefghijkl", role := "user", photo := none,
    uuid := "3f2b8c1e-5a4d-4e6f-9b7a-1c2d3e4f5a6b", createdAt := 1000, updatedAt := 1000,
    __v := 0 }

/-- A store holding one user. -/
def sampleStore : Store := { users := [alice], images := [] }

/-- Surroundings of one request: clock at 5000 ms, fresh identifiers. -/
def sampleEnv : Env :=
  { now := 5000, objectId := "64b7f0c2a1d3e4f5a6b7c8da",
    uuid := "7a1b2c3d-4e5f-4a6b-8c7d-9e0f1a2b3c4d", salt := "abcdefghijklmnopqrstuv",
    secret := some "s3cr3t" }

/-- An uploaded file. -/
def sampleFile : File :=
  { originalname := "me.png", mimetype := "image/png", path := "uploads/me.png",
    content := [137, 80, 78, 71] }

/-- A registration with string fields and no file. -/
def regReq (username email password : String) (role : Option String) : RegisterReq :=
  { username := some (.str username), email := some (.str email),
    password := some (.str password), role := role.map Json.str, file := none }

/-- A login with string fields. -/
def loginReq (email password : String) : LoginReq :=
  { email := some (.str email), password := some (.str password) }


/-! ## Lemmas on the setters and casts -/

theorem asString_eq_some (v : Option Json) (s : String) :
    asString v = some s ↔ v = some (.str s) := by
  cases v with
  | none => simp [asString]
  | some j => cases j <;> simp [asString]

theorem castField_str (L : Lib) (s : String) : castField L (some (.str s)) = some s := by
  simp [castField, asString]

theorem dropWhile_rdropWhile_self {α : Type} (p : α → Bool) (l : List α) :
    (((l.dropWhile p).rdropWhile p).dropWhile p) = (l.dropWhile p).rdropWhile p := by
  have hpre := List.rdropWhile_prefix p (l.dropWhile p)
  have hhead := List.head?_dropWhile_not p l
  cases hr : (l.dropWhile p).rdropWhile p with
  | nil => rfl
  | cons a r =>
    rw [hr] at hpre
    obtain ⟨t, ht⟩ := hpre
    rw [← ht] at hhead
    simp only [List.cons_append, List.head?_cons] at hhead
    rw [List.dropWhile_cons_of_neg (by simp [hhead])]

theorem trim_data (s : String) :
    (trim s).data = (s.data.dropWhile isWhiteSpace).rdropWhile isWhiteSpace := rfl

theorem trim_idem (s : String) : trim (trim s) = trim s := by
  apply String.ext
  rw [trim_data, trim_data, dropWhile_rdropWhile_self, List.rdropWhile_idempotent]

/-- Stored emails are fixed points of the setters: normalising twice is
normalising once. -/
theorem normEmail_idem (L : Lib) (e : String) : normEmail L (normEmail L e) = normEmail L e := by
  unfold normEmail
  rw [L.toLowerCase_trim, L.toLowerCase_idem, trim_idem]

/-! ## Response bodies -/

theorem message_hasKey_password (m : String) : (message m).hasKey "password" = false := by
  simp [message, Body.hasKey]

theorem findOneByEmail_mem (L : Lib) (users : List User) (email : Option Json) (u : User)
    (h : findOneByEmail L users email = .found u) : u ∈ users := by
  cases email with
  | none => simp [findOneByEmail] at h
  | some j =>
    cases j with
    | null => simp [findOneByEmail] at h
    | str e =>
      simp only [findOneByEmail] at h
      cases hf : users.find? (fun u => u.email == normEmail L e) with
      | none =>
        rw [hf] at h
        cases h
      | some v =>
        rw [hf] at h
        simp only [Lookup.found.injEq] at h
        rw [← h]
        exact List.mem_of_find?_eq_some hf
    | bool b => exact L.findOneOther_mem _ _ _ (by simpa [findOneByEmail] using h)
    | num n => exact L.findOneOther_mem _ _ _ (by simpa [findOneByEmail] using h)
    | arr a => exact L.findOneOther_mem _ _ _ (by simpa [findOneByEmail] using h)
    | obj o => exact L.findOneOther_mem _ _ _ (by simpa [findOneByEmail] using h)

theorem findOneByEmail_str (L : Lib) (users : List User) (e : String) :
    (findOneByEmail L users (some (.str e)) = .nothing ↔
      ∀ u ∈ users, u.email ≠ normEmail L e) ∧
    (∀ u, findOneByEmail L users (some (.str e)) = .found u →
      u ∈ users ∧ u.email = normEmail L e) ∧
    findOneByEmail L users (some (.str e)) ≠ .threw := by
  have hdef : findOneByEmail L users (some (.str e)) =
      match users.find? (fun u => u.email == normEmail L e) with
      | some u => .found u
      | none => .nothing := by
    simp [findOneByEmail]
  rw [hdef]
  cases hf : users.find? (fun u => u.email == normEmail L e) with
  | none =>
    refine ⟨?_, ?_, ?_⟩
    · simpa [List.find?_eq_none] using hf
    · intro u h
      cases h
    · simp
  | some v =>
    refine ⟨?_, ?_, ?_⟩
    · constructor
      · intro h
        cases h
      · intro h
        have hv := List.find?_some hf
        exact absurd (by simpa using hv) (h v (List.mem_of_find?_eq_some hf))
    · intro u h
      simp only [Lookup.found.injEq] at h
      rw [← h]
      exact ⟨List.mem_of_find?_eq_some hf, by simpa using List.find?_some hf⟩
    · simp

theorem generateToken_some (env : Env) (u : User) (k : String)
    (hk : env.secret = some k) (hk0 : k ≠ "") :
    generateToken env u =
      some { payload := [("uuid", u._id), ("username", u.username), ("role", u.role)],
             secret := k, iat := env.now / 1000, exp := env.now / 1000 + 3600 } := by
  simp [generateToken, jwtSign, hk, hk0, oneHour]

theorem generateToken_none (env : Env) (u : User)
    (hk : env.secret = none ∨ env.secret = some "") : generateToken env u = none := by
  rcases hk with h | h <;> simp [generateToken, jwtSign, h]

/-- C3: no response body of `POST /login` or `GET /users` has a `password` key;
the body of a 200 login carries under `user` exactly the four fields username,
email, photo and uuid with the values of the stored user the lookup found; and
the body of `GET /users` is the `users` array that lists, for every stored
user in order, its nine other fields at their stored values and no
`password`. -/
theorem login_and_getUsers_without_password (L : Lib) (env : Env) (s : Store) (req : LoginReq) :
    (login L env s req).1.body.hasKey "password" = false ∧
    ((login L env s req).1.status ≠ 200 ∨
      ∃ u ∈ s.users, findOneByEmail L s.users req.email = .found u ∧
        (login L env s req).1.body.get "user" =
        some (.doc [("username", .str u.username), ("email", .str u.email),
                    ("photo", optStr u.photo), ("uuid", .str u.uuid)])) ∧
    (getUsers s).1.body.hasKey "password" = false ∧
    (getUsers s).1.status = 200 ∧
    (getUsers s).1.body =
      [("users", .docs (s.users.map (fun u =>
        [("_id", .str u._id), ("username", .str u.username), ("email", .str u.email),
         ("role", .str u.role), ("photo", optStr u.photo), ("uuid", .str u.uuid),
         ("createdAt", .date u.createdAt), ("updatedAt", .date u.updatedAt),
         ("__v", .num u.__v)])))] := by
  have hlist : ∀ u : User, u.toJSON.exclude "password" =
      [("_id", .str u._id), ("username", .str u.username), ("email", .str u.email),
       ("role", .str u.role), ("photo", optStr u.photo), ("uuid", .str u.uuid),
       ("createdAt", .date u.createdAt), ("updatedAt", .date u.updatedAt),
       ("__v", .num u.__v)] := by
    intro u
    rfl
  have hbody : (getUsers s).1.body =
      [("users", .docs (s.users.map (fun u =>
        [("_id", .str u._id), ("username", .str u.username), ("email", .str u.email),
         ("role", .str u.role), ("photo", optStr u.photo), ("uuid", .str u.uuid),
         ("createdAt", .date u.createdAt), ("updatedAt", .date u.updatedAt),
         ("__v", .num u.__v)])))] := by
    simp only [getUsers, hlist]
  refine ⟨?_, ?_, ?_, rfl, hbody⟩
  · cases hf : findOneByEmail L s.users req.email with
    | threw => simp [login, hf, message, Body.hasKey]
    | nothing => simp [login, hf, message, Body.hasKey]
    | found user =>
      cases hp : asString req.password with
      | none => simp [login, hf, hp, message, Body.hasKey]
      | some pw =>
        by_cases hc : L.compare pw user.password = true
        · cases ht : generateToken env user with
          | none => simp [login, hf, hp, hc, ht, message, Body.hasKey]
          | some t => simp [login, hf, hp, hc, ht, Body.hasKey, Doc.hasKey]
        · simp [login, hf, hp, hc, message, Body.hasKey]
  · cases hf : findOneByEmail L s.users req.email with
    | threw => left; simp [login, hf]
    | nothing => left; simp [login, hf]
    | found user =>
      cases hp : asString req.password with
      | none => left; simp [login, hf, hp]
      | some pw =>
        by_cases hc : L.compare pw user.password = true
        · cases ht : generateToken env user with
          | none => left; simp [login, hf, hp, hc, ht]
          | some t =>
            right
            exact ⟨user, findOneByEmail_mem L _ _ _ hf, rfl,
              by simp [login, hf, hp, hc, ht, Body.get]⟩
        · left; simp [login, hf, hp, hc]
  · rw [hbody]
    simp [Body.hasKey, Doc.hasKey, List.any_map]

/-! ## Login -/

/-- Every 200 answer of `POST /login` carries a token whose `uuid` claim is the
`_id` of the user the lookup found, whose `role` claim is the stored role of
that user, and which expires 3600 seconds after it was issued. -/
theorem login_token_claims (L : Lib) (env : Env) (s : Store) (req : LoginReq)
    (h : (login L env s req).1.status = 200) :
    ∃ u t, findOneByEmail L s.users req.email = .found u ∧
      (login L env s req).1.body.get "token" = some (.val (.jwt t)) ∧
      t.payload.lookup "uuid" = some u._id ∧ t.payload.lookup "role" = some u.role ∧
      t.exp = t.iat + 3600 := by
  cases hf : findOneByEmail L s.users req.email with
  | threw => simp [login, hf] at h
  | nothing => simp [login, hf] at h
  | found user =>
    cases hp : asString req.password with
    | none => simp [login, hf, hp] at h
    | some pw =>
      by_cases hc : L.compare pw user.password = true
      · cases hs : env.secret with
        | none =>
          simp [login, hf, hp, hc, generateToken_none env user (Or.inl hs)] at h
        | some k =>
          by_cases hk0 : k = ""
          · simp [login, hf, hp, hc, generateToken_none env user (Or.inr (hk0 ▸ hs))] at h
          · refine ⟨user, (⟨[("uuid", user._id), ("username", user.username),
                ("role", user.role)], k, env.now / 1000, env.now / 1000 + 3600⟩ : Jwt),
              rfl, ?_, ?_, ?_, ?_⟩
            · simp only [login, hf, hp, hc, generateToken_some env user k hs hk0]
              simp [Body.get]
            · simp [List.lookup]
            · simp [List.lookup]
            · rfl
      · simp [login, hf, hp, hc] at h

/-- C1: at the stored user `alice` and a login with her email and password,
the answer is 200 and the token is issued for one hour with her stored role,
but its `uuid` claim is her `_id`, which is not her stored `uuid`. -/
theorem login_token_uuid_claim_is_the_id :
    (login sampleLib sampleEnv sampleStore (loginReq "alice@example.com" "secret")).1.status
      = 200 ∧
    (login sampleLib sampleEnv sampleStore (loginReq "alice@example.com" "secret")).1.body.get
        "token" =
      some (.val (.jwt { payload := [("uuid", "64b7f0c2a1d3e4f5a6b7c8d9"),
                                      ("username", "alice"), ("role", "user")],
                          secret := "s3cr3t", iat := 5, exp := 3605 })) ∧
    alice._id = "64b7f0c2a1d3e4f5a6b7c8d9" ∧
    alice.uuid = "3f2b8c1e-5a4d-4e6f-9b7a-1c2d3e4f5a6b" ∧
    alice._id ≠ alice.uuid ∧
    alice.role = "user" := by
  decide

/-- C2: at the store holding `alice`, a photo upload naming her email is
answered 200 with a `user` object that has a `password` key, and its value is
her stored hash. -/
theorem uploadPhoto_body_has_password :
    (uploadPhoto sampleLib sampleEnv sampleStore
      ⟨some sampleFile, some "alice@example.com"⟩).1.status = 200 ∧
    (uploadPhoto sampleLib sampleEnv sampleStore
      ⟨some sampleFile, some "alice@example.com"⟩).1.body.hasKey "password" = true ∧
    (uploadPhoto sampleLib sampleEnv sampleStore
      ⟨some sampleFile, some "alice@example.com"⟩).1.body.get "user" =
      some (.doc { alice with photo := some "uploads/me.png", updatedAt := 5000 }.toJSON) ∧
    ({ alice with photo := some "uploads/me.png", updatedAt := 5000 } : User).toJSON.get
      "password" = some (.str alice.password) := by
  decide

theorem login_store (L : Lib) (env : Env) (s : Store) (req : LoginReq) :
    (login L env s req).2 = s := by
  cases hf : findOneByEmail L s.users req.email with
  | threw => simp [login, hf]
  | nothing => simp [login, hf]
  | found user =>
    cases hp : asString req.password with
    | none => simp [login, hf, hp]
    | some pw =>
      by_cases hc : L.compare pw user.password = true
      · cases ht : generateToken env user <;> simp [login, hf, hp, hc, ht]
      · simp [login, hf, hp, hc]

/-- C5, as the code has it, with the signing secret set: the answer is 200
exactly when the lookup `User.findOne` with the email value of the request
finds a user and the password of the request is a string that verifies
against the stored hash of that user; it is 400 "User not found" when the
lookup finds nobody, 400 "Invalid credentials" when it finds a user and the
password is a string that does not verify, and 500 "Server error" when it
finds a user and the password is absent or not a string, or when the lookup
throws.  When the email of the request is a string, the lookup does not throw,
finds nobody exactly when no stored email is that string lowercased and
trimmed, and a user it finds is stored under that email; for any other value
a user it finds is a stored user.  The store is never changed.  Without a
signing secret no login is answered 200. -/
theorem login_answers (L : Lib) (env : Env) (s : Store) (req : LoginReq) (k : String)
    (hk : env.secret = some k) (hk0 : k ≠ "") :
    ((login L env s req).1.status = 200 ↔
      ∃ u pw, findOneByEmail L s.users req.email = .found u ∧
        req.password = some (.str pw) ∧ L.compare pw u.password = true) ∧
    (findOneByEmail L s.users req.email = .nothing →
      (login L env s req).1 = ⟨400, message "User not found"⟩) ∧
    (findOneByEmail L s.users req.email = .threw →
      (login L env s req).1 = ⟨500, message "Server error"⟩) ∧
    (∀ u pw, findOneByEmail L s.users req.email = .found u →
      req.password = some (.str pw) → L.compare pw u.password = false →
      (login L env s req).1 = ⟨400, message "Invalid credentials"⟩) ∧
    (∀ u, findOneByEmail L s.users req.email = .found u →
      (∀ pw, req.password ≠ some (.str pw)) →
      (login L env s req).1 = ⟨500, message "Server error"⟩) ∧
    (∀ e, req.email = some (.str e) →
      (findOneByEmail L s.users req.email = .nothing ↔
        ∀ u ∈ s.users, u.email ≠ normEmail L e) ∧
      (∀ u, findOneByEmail L s.users req.email = .found u →
        u ∈ s.users ∧ u.email = normEmail L e) ∧
      findOneByEmail L s.users req.email ≠ .threw) ∧
    (∀ u, findOneByEmail L s.users req.email = .found u → u ∈ s.users) ∧
    (login L env s req).2 = s ∧
    (∀ env2 : Env, env2.secret = none ∨ env2.secret = some "" →
      (login L env2 s req).1.status ≠ 200) := by
  refine ⟨?_, ?_, ?_, ?_, ?_, ?_, ?_, ?_, ?_⟩
  · cases hf : findOneByEmail L s.users req.email with
    | threw => simp [login, hf]
    | nothing => simp [login, hf]
    | found user =>
      cases hp : asString req.password with
      | none =>
        have hst : (login L env s req).1.status = 500 := by simp [login, hf, hp]
        constructor
        · intro h
          rw [hst] at h
          exact absurd h (by decide)
        · rintro ⟨u, pw, _, hpw, _⟩
          rw [(asString_eq_some _ _).2 hpw] at hp
          cases hp
      | some pw =>
        have hpw := (asString_eq_some _ _).1 hp
        by_cases hc : L.compare pw user.password = true
        · have hst : (login L env s req).1.status = 200 := by
            simp [login, hf, hp, hc, generateToken_some env user k hk hk0]
          exact ⟨fun _ => ⟨user, pw, rfl, hpw, hc⟩, fun _ => hst⟩
        · have hst : (login L env s req).1.status = 400 := by simp [login, hf, hp, hc]
          constructor
          · intro h
            rw [hst] at h
            exact absurd h (by decide)
          · rintro ⟨u, pw2, hu, hpw2, hc2⟩
            rw [hpw] at hpw2
            simp only [Option.some.injEq, Json.str.injEq] at hpw2
            simp only [Lookup.found.injEq] at hu
            rw [← hu, ← hpw2] at hc2
            exact absurd hc2 hc
  · intro hf
    simp [login, hf]
  · intro hf
    simp [login, hf]
  · intro u pw hf hp hc
    simp [login, hf, (asString_eq_some _ _).2 hp, hc]
  · intro u hf hp
    have hno : asString req.password = none := by
      cases h : asString req.password with
      | none => rfl
      | some pw => exact absurd ((asString_eq_some _ _).1 h) (hp pw)
    simp [login, hf, hno]
  · intro e he
    rw [he]
    exact findOneByEmail_str L s.users e
  · intro u hf
    exact findOneByEmail_mem L _ _ _ hf
  · exact login_store L env s req
  · intro env2 h2
    cases hf : findOneByEmail L s.users req.email with
    | threw => simp [login, hf]
    | nothing => simp [login, hf]
    | found user =>
      cases hp : asString req.password with
      | none => simp [login, hf, hp]
      | some pw =>
        by_cases hc : L.compare pw user.password = true
        · simp [login, hf, hp, hc, generateToken_none env2 user h2]
        · simp [login, hf, hp, hc]

theorem login_answers_witness :
    (login sampleLib sampleEnv sampleStore (loginReq " Alice@Example.COM " "secret")).1.status
      = 200 ∧
    (login sampleLib sampleEnv sampleStore (loginReq " Alice@Example.COM " "wrong")).1
      = ⟨400, message "Invalid credentials"⟩ :=
  ⟨(login_answers sampleLib sampleEnv sampleStore (loginReq " Alice@Example.COM " "secret")
      "s3cr3t" rfl (by decide)).1.2 ⟨alice, "secret", by decide, rfl, by decide⟩,
   (login_answers sampleLib sampleEnv sampleStore (loginReq " Alice@Example.COM " "wrong")
      "s3cr3t" rfl (by decide)).2.2.2.1 alice "wrong" (by decide) rfl (by decide)⟩

/-- C5, the claim as written fails: `alice` is stored under the email of the
request, the request carries no password, so none verifies, and the answer is
500 "Server error", not 400 "Invalid credentials". -/
theorem login_without_password_is_500 :
    findOneByEmail sampleLib sampleStore.users (some (.str "alice@example.com")) =
      .found alice ∧
    (login sampleLib sampleEnv sampleStore ⟨some (.str "alice@example.com"), none⟩).1 =
      ⟨500, message "Server error"⟩ ∧
    (login sampleLib sampleEnv sampleStore ⟨some (.str "alice@example.com"), none⟩).1.status
      ≠ 400 := by
  decide

/-- A login whose email is the operator object `{ $ne: null }` and whose
password is the password of `alice` is answered 200 in the sample library,
though the email of the request is no stored email. -/
theorem login_operator_object_is_200 :
    (login sampleLib sampleEnv sampleStore
      ⟨some (.obj [("$ne", .null)]), some (.str "secret")⟩).1.status = 200 := by
  decide

/-! ## Image upload -/

/-- C6: an image upload with a file attached whose uuid is the uuid of no
stored user is answered 404 and leaves both collections as they were. -/
theorem uploadImage_unknown_uuid (L : Lib) (s : Store) (req : ImageReq) (f : File)
    (hfile : req.file = some f) (hnone : ∀ u ∈ s.users, u.uuid ≠ req.uuid) :
    (uploadImage L s req).1.status = 404 ∧
    (uploadImage L s req).1.body = message "User not found" ∧
    (uploadImage L s req).2.images = s.images ∧
    (uploadImage L s req).2.users = s.users ∧
    (uploadImage L s req).2 = s := by
  have hfind : findOneByUuid s.users req.uuid = none := by
    simpa [findOneByUuid, List.find?_eq_none] using hnone
  simp [uploadImage, hfile, hfind]

theorem uploadImage_unknown_uuid_witness :
    (uploadImage sampleLib sampleStore ⟨"00000000-0000-4000-8000-000000000000", some sampleFile⟩).1.status
      = 404 ∧
    (uploadImage sampleLib sampleStore
      ⟨"00000000-0000-4000-8000-000000000000", some sampleFile⟩).2 = sampleStore :=
  have h := uploadImage_unknown_uuid sampleLib sampleStore
    ⟨"00000000-0000-4000-8000-000000000000", some sampleFile⟩ sampleFile rfl (by decide)
  ⟨h.1, h.2.2.2.2⟩

/-! ## Registration -/

theorem insertUser_eq_some (users : List User) (u : User)
    (h : ∀ v ∈ users, v._id ≠ u._id ∧ v.email ≠ u.email ∧ v.uuid ≠ u.uuid) :
    insertUser users u = some (users ++ [u]) := by
  have hany : users.any (fun v => v._id == u._id || v.email == u.email || v.uuid == u.uuid)
      = false := by
    rw [List.any_eq_false]
    intro v hv
    obtain ⟨h1, h2, h3⟩ := h v hv
    simp [h1, h2, h3]
  simp [insertUser, hany]

theorem insertUser_some_inv (users : List User) (u : User) (r : List User)
    (h : insertUser users u = some r) :
    r = users ++ [u] ∧ ∀ v ∈ users, v.email ≠ u.email := by
  unfold insertUser at h
  split at h
  · exact absurd h (by simp)
  · rename_i hany
    refine ⟨by simpa using h.symm, ?_⟩
    intro v hv heq
    apply hany
    rw [List.any_eq_true]
    exact ⟨v, hv, by simp [heq]⟩

theorem newUser_some_inv (L : Lib) (env : Env) (username email : Option Json)
    (password : String) (role : Option Json) (photo : Option String) (u : User)
    (h : newUser L env username email password role photo = some u) :
    ∃ un em r, castField L username = some un ∧ castField L email = some em ∧
      roleField L role = some r ∧ u.email = normEmail L em ∧ roleEnum.contains r = true := by
  unfold newUser at h
  cases h1 : castField L username with
  | none => simp [h1] at h
  | some un =>
    cases h2 : castField L email with
    | none => simp [h1, h2] at h
    | some em =>
      cases h3 : roleField L role with
      | none => simp [h1, h2, h3] at h
      | some r =>
        rw [h1, h2, h3] at h
        simp only [] at h
        by_cases hc : (trim un != "" && normEmail L em != "" && password != "" &&
            roleEnum.contains r && env.uuid != "") = true
        · rw [if_pos hc] at h
          simp only [Bool.and_eq_true] at hc
          refine ⟨un, em, r, rfl, rfl, rfl, ?_, hc.1.2⟩
          simp only [Option.some.injEq] at h
          rw [← h]
        · rw [if_neg hc] at h
          exact absurd h (by simp)

theorem hash_ne_empty (L : Lib) (pw : String) (rounds : Nat) (salt : String) :
    L.hash pw rounds salt ≠ "" := by
  intro h
  have hl := L.hash_length pw rounds salt
  rw [h] at hl
  exact absurd hl (by decide)

theorem roleField_of_valid (L : Lib) (role : Option Json)
    (hrole : role = none ∨ ∃ r, role = some (.str r) ∧ r ∈ roleEnum) :
    ∃ r, roleField L role = some r ∧ r ∈ roleEnum ∧ (role = none → r = "user") ∧
      (∀ r2, role = some (.str r2) → r = r2) := by
  rcases hrole with h | ⟨r, h, hr⟩
  · refine ⟨"user", by simp [roleField, h], by decide, fun _ => rfl, ?_⟩
    intro r2 h2
    rw [h] at h2
    cases h2
  · refine ⟨r, by simp [roleField, h, castField_str], hr, ?_, ?_⟩
    · intro h2
      rw [h] at h2
      cases h2
    · intro r2 h2
      rw [h] at h2
      simp only [Option.some.injEq, Json.str.injEq] at h2
      exact h2

theorem register_ok (L : Lib) (env : Env) (s : Store) (req : RegisterReq) (un e pw : String)
    (hun : req.username = some (.str un)) (hunv : trim un ≠ "")
    (he : req.email = some (.str e)) (hev : normEmail L e ≠ "")
    (hpw : req.password = some (.str pw))
    (hrole : req.role = none ∨ ∃ r, req.role = some (.str r) ∧ r ∈ roleEnum)
    (hfree : ∀ u ∈ s.users, u.email ≠ normEmail L e)
    (hid : ∀ u ∈ s.users, u._id ≠ env.objectId)
    (huuid : ∀ u ∈ s.users, u.uuid ≠ env.uuid) (hgen : env.uuid ≠ "") :
    register L env s req =
      (⟨201, message "User registered successfully"⟩,
       { s with users := s.users ++ [registered L env req un e pw] }) := by
  have hfind : findOneByEmail L s.users req.email = .nothing := by
    rw [he]
    exact (findOneByEmail_str L s.users e).1.2 hfree
  obtain ⟨r, hr, hrm, _, _⟩ := roleField_of_valid L req.role hrole
  have hnew : newUser L env req.username req.email (L.hash pw 10 env.salt) req.role
      (req.file.map (fun f => f.path)) = some (registered L env req un e pw) := by
    simp [newUser, hun, he, castField_str, hr, hunv, hev, hash_ne_empty, hrm, hgen, registered]
  have hins := insertUser_eq_some s.users (registered L env req un e pw)
    (fun v hv => ⟨hid v hv, hfree v hv, huuid v hv⟩)
  have hps : asString req.password = some pw := (asString_eq_some _ _).2 hpw
  simp [register, hfind, hps, hnew, hins]

theorem register_cases (L : Lib) (env : Env) (s : Store) (req : RegisterReq) :
    ((register L env s req).2 = s ∧ (register L env s req).1.status ≠ 201) ∨
    (∃ u em r, castField L req.email = some em ∧ u.email = normEmail L em ∧
      (∀ v ∈ s.users, v.email ≠ u.email) ∧
      roleField L req.role = some r ∧ roleEnum.contains r = true ∧
      castField L req.username ≠ none ∧ asString req.password ≠ none ∧
      register L env s req =
        (⟨201, message "User registered successfully"⟩, { s with users := s.users ++ [u] })) := by
  cases hf : findOneByEmail L s.users req.email with
  | threw => left; simp [register, hf]
  | found _ => left; simp [register, hf]
  | nothing =>
    cases hpw : asString req.password with
    | none => left; simp [register, hf, hpw]
    | some pw =>
      cases hnew : newUser L env req.username req.email (L.hash pw 10 env.salt) req.role
          (req.file.map (fun f => f.path)) with
      | none => left; simp [register, hf, hpw, hnew]
      | some u =>
        cases hins : insertUser s.users u with
        | none => left; simp [register, hf, hpw, hnew, hins]
        | some users =>
          right
          obtain ⟨un, em, r, hu, hem, hr, hue, hrc⟩ := newUser_some_inv _ _ _ _ _ _ _ _ hnew
          obtain ⟨hus, hne⟩ := insertUser_some_inv _ _ _ hins
          exact ⟨u, em, r, hem, hue, hne, hr, hrc, by simp [hu], by simp,
            by simp [register, hf, hpw, hnew, hins, hus]⟩

/-- C9: a registration whose username, email and password are strings, the
first two not blank, and whose role is absent or one of the three of the
schema, whose email no stored user has, is answered 201 with a body that has
no token and adds exactly one user: its password is the bcrypt hash, cost 10,
of the submitted password, a string of 60 characters that is not the
plaintext; its role is the submitted one, or "user" when none is given; its
photo is the path of the attached file, or null without one; its email and
username are the submitted ones after the setters.  A request whose role is a
string that is not in the enumeration creates no user.  The identifiers
generated for the new document are taken to be fresh. -/
theorem register_valid_creates_user (L : Lib) (env : Env) (s : Store) (req : RegisterReq)
    (un e pw : String)
    (hun : req.username = some (.str un)) (hunv : trim un ≠ "")
    (he : req.email = some (.str e)) (hev : trim (L.toLowerCase e) ≠ "")
    (hpw : req.password = some (.str pw))
    (hrole : req.role = none ∨ ∃ r, req.role = some (.str r) ∧ r ∈ roleEnum)
    (hfree : ∀ u ∈ s.users, u.email ≠ trim (L.toLowerCase e))
    (hid : ∀ u ∈ s.users, u._id ≠ env.objectId)
    (huuid : ∀ u ∈ s.users, u.uuid ≠ env.uuid) (hgen : env.uuid ≠ "") :
    (register L env s req).1 = ⟨201, message "User registered successfully"⟩ ∧
    (register L env s req).1.body.hasKey "token" = false ∧
    (register L env s req).2.images = s.images ∧
    (∃ u : User, (register L env s req).2.users = s.users ++ [u] ∧
      u.password = L.hash pw 10 env.salt ∧
      u.password.length = 60 ∧
      u.password ≠ pw ∧
      (req.role = none → u.role = "user") ∧
      (∀ r, req.role = some (.str r) → u.role = r) ∧
      u.photo = (match req.file with
        | some f => some f.path
        | none => none) ∧
      u.email = trim (L.toLowerCase e) ∧ u.username = trim un ∧ u.uuid = env.uuid ∧
      u._id = env.objectId) ∧
    (∀ (env2 : Env) (s2 : Store) (req2 : RegisterReq) (r : String),
      req2.role = some (.str r) → r ∉ roleEnum →
      (register L env2 s2 req2).2 = s2 ∧ (register L env2 s2 req2).1.status ≠ 201) := by
  have hok := register_ok L env s req un e pw hun hunv he hev hpw hrole hfree hid huuid hgen
  obtain ⟨r, hr, _, hr1, hr2⟩ := roleField_of_valid L req.role hrole
  have hrole2 : (registered L env req un e pw).role = r := by
    simp [registered, hr]
  refine ⟨by rw [hok], by rw [hok]; simp [message, Body.hasKey], by rw [hok], ?_, ?_⟩
  · refine ⟨registered L env req un e pw, by rw [hok], rfl, L.hash_length _ _ _,
      L.hash_ne _ _ _, ?_, ?_, ?_, rfl, rfl, rfl, rfl⟩
    · intro h
      rw [hrole2]
      exact hr1 h
    · intro r2 h
      rw [hrole2]
      exact hr2 r2 h
    · simp only [registered]
      cases req.file <;> rfl
  · intro env2 s2 req2 r2 hr2 hnot
    rcases register_cases L env2 s2 req2 with h | ⟨u, em, r3, _, _, _, hrf, hc, _⟩
    · exact h
    · rw [hr2] at hrf
      simp only [roleField, castField_str, Option.some.injEq] at hrf
      rw [← hrf] at hc
      exact absurd (by simpa using hc) hnot

theorem register_valid_creates_user_witness :
    (register sampleLib sampleEnv sampleStore
      ⟨some (.str " bob "), some (.str "Bob@Example.com"), some (.str "hunter2"),
        some (.str "manager"), some sampleFile⟩).1
      = ⟨201, message "User registered successfully"⟩ ∧
    (register sampleLib sampleEnv sampleStore
      ⟨some (.str " bob "), some (.str "Bob@Example.com"), some (.str "hunter2"),
        some (.str "manager"), some sampleFile⟩).2.images = [] :=
  have h := register_valid_creates_user sampleLib sampleEnv sampleStore
    ⟨some (.str " bob "), some (.str "Bob@Example.com"), some (.str "hunter2"),
      some (.str "manager"), some sampleFile⟩
    " bob " "Bob@Example.com" "hunter2" rfl (by decide) rfl (by decide) rfl
    (Or.inr ⟨"manager", rfl, by decide⟩) (by decide) (by decide) (by decide) (by decide)
  ⟨h.1, h.2.2.1⟩

/-- C4: on a store where no user has the email `e` (lowercased and trimmed, as
stored), two registrations carrying the string `e`, the first of them with a
username and an email that are not blank, a string password, and a role that
is absent or valid, handled one after the other are answered 201 and then 400
"Email already in use.": the first adds exactly one user, the second leaves
the store as the first left it.  The identifiers generated for the first are
taken to be fresh. -/
theorem register_same_email_twice (L : Lib) (env1 env2 : Env) (s : Store)
    (r1 r2 : RegisterReq) (un e pw : String)
    (he1 : r1.email = some (.str e)) (he2 : r2.email = some (.str e))
    (hun : r1.username = some (.str un)) (hunv : trim un ≠ "")
    (hev : trim (L.toLowerCase e) ≠ "")
    (hpw : r1.password = some (.str pw))
    (hrole : r1.role = none ∨ ∃ r, r1.role = some (.str r) ∧ r ∈ roleEnum)
    (hfree : ∀ u ∈ s.users, u.email ≠ trim (L.toLowerCase e))
    (hid : ∀ u ∈ s.users, u._id ≠ env1.objectId)
    (huuid : ∀ u ∈ s.users, u.uuid ≠ env1.uuid) (hgen : env1.uuid ≠ "") :
    (register L env1 s r1).1 = ⟨201, message "User registered successfully"⟩ ∧
    (∃ u : User, u.email = trim (L.toLowerCase e) ∧
      (register L env1 s r1).2.users = s.users ++ [u]) ∧
    (register L env1 s r1).2.images = s.images ∧
    (register L env2 (register L env1 s r1).2 r2).1 = ⟨400, message "Email already in use."⟩ ∧
    (register L env2 (register L env1 s r1).2 r2).2 = (register L env1 s r1).2 := by
  have hok := register_ok L env1 s r1 un e pw hun hunv he1 hev hpw hrole hfree hid huuid hgen
  rw [hok]
  have hmem : registered L env1 r1 un e pw ∈ s.users ++ [registered L env1 r1 un e pw] := by
    simp
  cases hf : findOneByEmail L (s.users ++ [registered L env1 r1 un e pw]) r2.email with
  | threw =>
    rw [he2] at hf
    exact absurd hf (findOneByEmail_str L _ e).2.2
  | nothing =>
    rw [he2] at hf
    exact absurd rfl ((findOneByEmail_str L _ e).1.1 hf _ hmem)
  | found v =>
    refine ⟨rfl, ⟨registered L env1 r1 un e pw, rfl, rfl⟩, rfl, ?_, ?_⟩
    · simp [register, hf]
    · simp [register, hf]

theorem register_same_email_twice_witness :
    (register sampleLib sampleEnv sampleStore
      (regReq "bob" "bob@example.com" "hunter2" none)).1.status = 201 ∧
    (register sampleLib sampleEnv
      (register sampleLib sampleEnv sampleStore
        (regReq "bob" "bob@example.com" "hunter2" none)).2
      (regReq "robert" "bob@example.com" "other" (some "admin"))).1
      = ⟨400, message "Email already in use."⟩ :=
  have h := register_same_email_twice sampleLib sampleEnv sampleEnv sampleStore
    (regReq "bob" "bob@example.com" "hunter2" none)
    (regReq "robert" "bob@example.com" "other" (some "admin"))
    "bob" "bob@example.com" "hunter2" rfl rfl rfl (by decide) (by decide) rfl (Or.inl rfl)
    (by decide) (by decide) (by decide) (by decide)
  ⟨by rw [h.1], h.2.2.2.1⟩

/-- C7, as the code has it.  A photo upload with no file, or with a file and
no or an empty `user-email` header, and an image upload with no file, are
answered 400 and leave the store as it was.  A registration with no username,
no email or no password creates no user and is answered 500 "Server error",
unless the lookup by its email finds a stored user, when it is answered 400
"Email already in use."; when it carries a string email no stored user has,
the answer is 500.  A login with no password leaves the store as it was and is
answered 500 "Server error" when the lookup by its email finds a user or
throws, and 400 "User not found" when it finds nobody; a login with no email
is answered 400 "User not found", and a registration with no email 500
"Server error". -/
theorem missing_field_answers (L : Lib) (env : Env) (s : Store) (req : RegisterReq)
    (hmiss : req.username = none ∨ req.email = none ∨ req.password = none) :
    (register L env s req).2 = s ∧
    ((findOneByEmail L s.users req.email ≠ .nothing ∨
        (register L env s req).1 = ⟨500, message "Server error"⟩) ∧
      (findOneByEmail L s.users req.email ≠ .threw ∨
        (register L env s req).1 = ⟨500, message "Server error"⟩) ∧
      ((∀ u, findOneByEmail L s.users req.email ≠ .found u) ∨
        (register L env s req).1 = ⟨400, message "Email already in use."⟩)) ∧
    (∀ e : String, req.email = some (.str e) →
      (∀ u ∈ s.users, u.email ≠ trim (L.toLowerCase e)) →
      (register L env s req).1 = ⟨500, message "Server error"⟩) ∧
    (∀ (env2 : Env) (s2 : Store) (p : PhotoReq), p.file = none →
      uploadPhoto L env2 s2 p = (⟨400, message "No photo uploaded."⟩, s2)) ∧
    (∀ (env2 : Env) (s2 : Store) (p : PhotoReq) (f : File), p.file = some f →
      (p.userEmail = none ∨ p.userEmail = some "") →
      uploadPhoto L env2 s2 p = (⟨400, message "User email is missing."⟩, s2)) ∧
    (∀ (s2 : Store) (q : ImageReq), q.file = none →
      uploadImage L s2 q = (⟨400, message "No image uploaded"⟩, s2)) ∧
    (∀ (env2 : Env) (s2 : Store) (q : LoginReq), q.password = none →
      (login L env2 s2 q).2 = s2 ∧
      ((∀ u, findOneByEmail L s2.users q.email ≠ .found u) ∨
        (login L env2 s2 q).1 = ⟨500, message "Server error"⟩) ∧
      (findOneByEmail L s2.users q.email ≠ .threw ∨
        (login L env2 s2 q).1 = ⟨500, message "Server error"⟩) ∧
      (findOneByEmail L s2.users q.email ≠ .nothing ∨
        (login L env2 s2 q).1 = ⟨400, message "User not found"⟩)) ∧
    (∀ (env2 : Env) (s2 : Store) (q : LoginReq), q.email = none →
      login L env2 s2 q = (⟨400, message "User not found"⟩, s2)) ∧
    (req.email = none → (register L env s req).1 = ⟨500, message "Server error"⟩) := by
  have hnone : findOneByEmail L s.users req.email = .nothing →
      register L env s req = (⟨500, message "Server error"⟩, s) := by
    intro hf
    cases hpw : asString req.password with
    | none => simp [register, hf, hpw]
    | some pw =>
      have hnew : newUser L env req.username req.email (L.hash pw 10 env.salt) req.role
          (req.file.map (fun f => f.path)) = none := by
        rcases hmiss with h | h | h
        · simp [newUser, h, castField, asString]
        · rw [h]
          cases castField L req.username <;> simp [newUser, castField, asString]
        · rw [h] at hpw
          simp [asString] at hpw
      simp [register, hf, hpw, hnew]
  have hthrew : findOneByEmail L s.users req.email = .threw →
      register L env s req = (⟨500, message "Server error"⟩, s) := by
    intro hf
    simp [register, hf]
  have hsome : ∀ u, findOneByEmail L s.users req.email = .found u →
      register L env s req = (⟨400, message "Email already in use."⟩, s) := by
    intro u hf
    simp [register, hf]
  refine ⟨?_, ⟨?_, ?_, ?_⟩, ?_, ?_, ?_, ?_, ?_, ?_, ?_⟩
  · cases hf : findOneByEmail L s.users req.email with
    | threw => rw [hthrew hf]
    | nothing => rw [hnone hf]
    | found u => rw [hsome u hf]
  · by_cases hf : findOneByEmail L s.users req.email = .nothing
    · right; rw [hnone hf]
    · left; exact hf
  · by_cases hf : findOneByEmail L s.users req.email = .threw
    · right; rw [hthrew hf]
    · left; exact hf
  · by_cases hf : ∃ u, findOneByEmail L s.users req.email = .found u
    · obtain ⟨u, hu⟩ := hf
      right; rw [hsome u hu]
    · left
      intro u hu
      exact hf ⟨u, hu⟩
  · intro e he hfree
    have hf : findOneByEmail L s.users req.email = .nothing := by
      rw [he]
      exact (findOneByEmail_str L s.users e).1.2 hfree
    rw [hnone hf]
  · intro env2 s2 p hp
    simp [uploadPhoto, hp]
  · intro env2 s2 p f hp hh
    rcases hh with h | h <;> simp [uploadPhoto, hp, h]
  · intro s2 q hq
    simp [uploadImage, hq]
  · intro env2 s2 q hq
    have hp : asString q.password = none := by simp [hq, asString]
    refine ⟨login_store L env2 s2 q, ?_, ?_, ?_⟩
    · by_cases hf : ∃ u, findOneByEmail L s2.users q.email = .found u
      · obtain ⟨u, hu⟩ := hf
        right
        simp [login, hu, hp]
      · left
        intro u hu
        exact hf ⟨u, hu⟩
    · by_cases hf : findOneByEmail L s2.users q.email = .threw
      · right; simp [login, hf]
      · left; exact hf
    · by_cases hf : findOneByEmail L s2.users q.email = .nothing
      · right; simp [login, hf]
      · left; exact hf
  · intro env2 s2 q hq
    have hf : findOneByEmail L s2.users q.email = .nothing := by
      simp [findOneByEmail, hq]
    simp [login, hf]
  · intro he
    have hf : findOneByEmail L s.users req.email = .nothing := by
      simp [findOneByEmail, he]
    rw [hnone hf]

theorem missing_field_answers_witness :
    (register sampleLib sampleEnv sampleStore
      ⟨some (.str "bob"), some (.str "bob@example.com"), none, none, none⟩).2 = sampleStore ∧
    (register sampleLib sampleEnv sampleStore
      ⟨some (.str "bob"), some (.str "bob@example.com"), none, none, none⟩).1
      = ⟨500, message "Server error"⟩ :=
  have h := missing_field_answers sampleLib sampleEnv sampleStore
    ⟨some (.str "bob"), some (.str "bob@example.com"), none, none, none⟩ (Or.inr (Or.inr rfl))
  ⟨h.1, h.2.2.1 "bob@example.com" rfl (by decide)⟩

/-- C7, the claim as written fails: a registration with no username, whose
email no stored user has, is answered 500 "Server error", not 400; the store
is left as it was. -/
theorem register_without_username_is_500 :
    (register sampleLib sampleEnv sampleStore
      ⟨none, some (.str "bob@example.com"), some (.str "hunter2"), none, none⟩).1 =
      ⟨500, message "Server error"⟩ ∧
    (register sampleLib sampleEnv sampleStore
      ⟨none, some (.str "bob@example.com"), some (.str "hunter2"), none, none⟩).2 =
      sampleStore ∧
    (register sampleLib sampleEnv sampleStore
      ⟨none, some (.str "bob@example.com"), some (.str "hunter2"), none, none⟩).1.status
      ≠ 400 := by
  decide

/-! ## Profile photo -/

theorem findOneAndUpdate_none (now : Nat) (email photo : String) (users : List User)
    (h : ∀ u ∈ users, u.email ≠ email) :
    findOneAndUpdate now email photo users = (none, users) := by
  induction users with
  | nil => rfl
  | cons u us ih =>
    have hu : (u.email == email) = false := by simpa using h u (by simp)
    have ih2 := ih (fun v hv => h v (by simp [hv]))
    simp [findOneAndUpdate, hu, ih2]

theorem findOneAndUpdate_split (now : Nat) (email photo : String) (pre post : List User)
    (u : User) (hpre : ∀ v ∈ pre, v.email ≠ email) (hu : u.email = email) :
    findOneAndUpdate now email photo (pre ++ u :: post) =
      (some { u with photo := some photo, updatedAt := now },
       pre ++ { u with photo := some photo, updatedAt := now } :: post) := by
  induction pre with
  | nil => simp [findOneAndUpdate, hu]
  | cons v vs ih =>
    have hv : (v.email == email) = false := by simpa using hpre v (by simp)
    have ih2 := ih (fun w hw => hpre w (by simp [hw]))
    simp [findOneAndUpdate, hv, ih2]

theorem first_match_split (email : String) (users : List User)
    (h : ∃ u ∈ users, u.email = email) :
    ∃ pre u post, users = pre ++ u :: post ∧ (∀ v ∈ pre, v.email ≠ email) ∧ u.email = email := by
  induction users with
  | nil =>
    obtain ⟨u, hu, _⟩ := h
    exact absurd hu (by simp)
  | cons a as ih =>
    by_cases ha : a.email = email
    · exact ⟨[], a, as, rfl, by simp, ha⟩
    · obtain ⟨u, hu, hue⟩ := h
      have hmem : u ∈ as := by
        rcases List.mem_cons.1 hu with h1 | h1
        · exact absurd (h1 ▸ hue) ha
        · exact h1
      obtain ⟨pre, v, post, hs, hp, hv⟩ := ih ⟨u, hmem, hue⟩
      refine ⟨a :: pre, v, post, by simp [hs], ?_, hv⟩
      intro w hw
      rcases List.mem_cons.1 hw with h1 | h1
      · rw [h1]; exact ha
      · exact hp w h1

theorem findOneAndUpdate_emails (now : Nat) (email photo : String) (users : List User) :
    (findOneAndUpdate now email photo users).2.map (fun u => u.email)
      = users.map (fun u => u.email) := by
  induction users with
  | nil => rfl
  | cons u us ih =>
    by_cases hu : u.email = email
    · simp [findOneAndUpdate, hu]
    · simp [findOneAndUpdate, hu, ih]

/-- C8, as the code has it: a photo upload is answered 400 when no file is
attached, otherwise 400 when the `user-email` header is missing or empty,
otherwise 404 when no stored email is the header lowercased and trimmed, and
in these three cases the store is left as it was; otherwise it is answered 200
with the updated user, and in the store the first user stored under that email
has its photo set to "uploads/" followed by the name of the file and its
`updatedAt` set to the time of the request, every other field of that user,
every other user and the images being as before.  The last part says that
the cases are exhaustive. -/
theorem uploadPhoto_answers (L : Lib) (env : Env) (s : Store) (req : PhotoReq) :
    (req.file = none → uploadPhoto L env s req = (⟨400, message "No photo uploaded."⟩, s)) ∧
    (∀ f : File, req.file = some f → (req.userEmail = none ∨ req.userEmail = some "") →
      uploadPhoto L env s req = (⟨400, message "User email is missing."⟩, s)) ∧
    (∀ (f : File) (e : String), req.file = some f → req.userEmail = some e → e ≠ "" →
      (∀ u ∈ s.users, u.email ≠ trim (L.toLowerCase e)) →
      uploadPhoto L env s req = (⟨404, message "User not found."⟩, s)) ∧
    (∀ (f : File) (e : String) (pre post : List User) (u : User),
      req.file = some f → req.userEmail = some e → e ≠ "" →
      s.users = pre ++ u :: post → (∀ v ∈ pre, v.email ≠ trim (L.toLowerCase e)) →
      u.email = trim (L.toLowerCase e) →
      uploadPhoto L env s req =
        (⟨200, [("message", .val (.str "Profile photo uploaded successfully")),
                ("user", .doc { u with photo := some ("uploads/" ++ f.originalname),
                                       updatedAt := env.now }.toJSON)]⟩,
         { users := pre ++ { u with photo := some ("uploads/" ++ f.originalname),
                                    updatedAt := env.now } :: post,
           images := s.images })) ∧
    (∀ e : String, (∀ u ∈ s.users, u.email ≠ trim (L.toLowerCase e)) ∨
      ∃ pre u post, s.users = pre ++ u :: post ∧
        (∀ v ∈ pre, v.email ≠ trim (L.toLowerCase e)) ∧
        u.email = trim (L.toLowerCase e)) := by
  refine ⟨?_, ?_, ?_, ?_, ?_⟩
  · intro hf
    simp [uploadPhoto, hf]
  · intro f hf hh
    rcases hh with h | h <;> simp [uploadPhoto, hf, h]
  · intro f e hf he hne hnone
    have hu := findOneAndUpdate_none env.now (normEmail L e) ("uploads/" ++ f.filename)
      s.users hnone
    simp [uploadPhoto, hf, he, hne, hu]
  · intro f e pre post u hf he hne hs hpre hu
    have hupd := findOneAndUpdate_split env.now (normEmail L e) ("uploads/" ++ f.filename)
      pre post u hpre hu
    rw [← hs] at hupd
    simp only [File.filename] at hupd
    simp [uploadPhoto, hf, he, hne, hupd, File.filename]
  · intro e
    by_cases h : ∃ u ∈ s.users, u.email = trim (L.toLowerCase e)
    · right
      exact first_match_split _ _ h
    · left
      intro u hu hue
      exact h ⟨u, hu, hue⟩

/-- C8, the claim as written fails: the upload changes a second field of the
matched user, `updatedAt`, from 1000 to the 5000 of the clock, so the store is
not the one in which only her photo differs. -/
theorem uploadPhoto_changes_updatedAt :
    (uploadPhoto sampleLib sampleEnv sampleStore
      ⟨some sampleFile, some "alice@example.com"⟩).1.status = 200 ∧
    (uploadPhoto sampleLib sampleEnv sampleStore
      ⟨some sampleFile, some "alice@example.com"⟩).2.users
      = [{ alice with photo := some "uploads/me.png", updatedAt := 5000 }] ∧
    alice.updatedAt = 1000 ∧
    (uploadPhoto sampleLib sampleEnv sampleStore
      ⟨some sampleFile, some "alice@example.com"⟩).2.users
      ≠ [{ alice with photo := some "uploads/me.png" }] := by
  decide

/-! ## One user per email -/

theorem uploadPhoto_emails (L : Lib) (env : Env) (s : Store) (req : PhotoReq) :
    (uploadPhoto L env s req).2.users.map (fun u => u.email)
      = s.users.map (fun u => u.email) := by
  cases hf : req.file with
  | none => simp [uploadPhoto, hf]
  | some f =>
    cases he : req.userEmail with
    | none => simp [uploadPhoto, hf, he]
    | some e =>
      by_cases hne : e = ""
      · simp [uploadPhoto, hf, he, hne]
      · have hem := findOneAndUpdate_emails env.now (normEmail L e) ("uploads/" ++ f.filename)
          s.users
        cases hu : findOneAndUpdate env.now (normEmail L e) ("uploads/" ++ f.filename)
            s.users with
        | mk found users =>
          rw [hu] at hem
          cases found with
          | none => simp [uploadPhoto, hf, he, hne, hu]
          | some v => simpa [uploadPhoto, hf, he, hne, hu] using hem

theorem uploadImage_users (L : Lib) (s : Store) (req : ImageReq) :
    (uploadImage L s req).2.users = s.users := by
  unfold uploadImage
  split
  · rfl
  · split
    · rfl
    · simp only []
      split <;> rfl

theorem handle_emails (L : Lib) (s : Store) (op : Op) :
    (handle L s op).2.users.map (fun u => u.email) = s.users.map (fun u => u.email) ∨
    ∃ u em, (handle L s op).2.users = s.users ++ [u] ∧ u.email = normEmail L em ∧
      ∀ v ∈ s.users, v.email ≠ u.email := by
  cases op with
  | register env req =>
    show (register L env s req).2.users.map (fun u => u.email) = _ ∨
      ∃ u em, (register L env s req).2.users = s.users ++ [u] ∧ _
    rcases register_cases L env s req with ⟨h, _⟩ | ⟨u, em, _, _, hue, hfree, _, _, _, _, hreg⟩
    · left; rw [h]
    · right
      exact ⟨u, em, by rw [hreg], hue, hfree⟩
  | login env req =>
    left
    show (login L env s req).2.users.map (fun u => u.email) = _
    rw [login_store]
  | getUsers => left; rfl
  | uploadPhoto env req => left; exact uploadPhoto_emails L env s req
  | uploadImage req =>
    left
    show (uploadImage L s req).2.users.map (fun u => u.email) = _
    rw [uploadImage_users]

theorem handle_preserves (L : Lib) (s : Store) (op : Op)
    (hnd : (s.users.map (fun u => u.email)).Nodup)
    (hnorm : ∀ e ∈ s.users.map (fun u => u.email), normEmail L e = e) :
    ((handle L s op).2.users.map (fun u => u.email)).Nodup ∧
    ∀ e ∈ (handle L s op).2.users.map (fun u => u.email), normEmail L e = e := by
  rcases handle_emails L s op with h | ⟨u, em, hus, hue, hfree⟩
  · rw [h]
    exact ⟨hnd, hnorm⟩
  · rw [hus]
    constructor
    · simp only [List.map_append, List.map_cons, List.map_nil]
      rw [List.nodup_append]
      refine ⟨hnd, List.nodup_singleton _, ?_⟩
      intro e he1 he2
      rw [List.mem_singleton] at he2
      obtain ⟨v, hv, hve⟩ := List.mem_map.1 he1
      exact hfree v hv (hve.trans he2)
    · intro e he
      simp only [List.map_append, List.map_cons, List.map_nil, List.mem_append,
        List.mem_singleton] at he
      rcases he with he | he
      · exact hnorm e he
      · rw [he, hue]
        exact normEmail_idem L em

theorem run_preserves (L : Lib) (ops : List Op) (s : Store)
    (hnd : (s.users.map (fun u => u.email)).Nodup)
    (hnorm : ∀ e ∈ s.users.map (fun u => u.email), normEmail L e = e) :
    ((run L s ops).users.map (fun u => u.email)).Nodup ∧
    ∀ e ∈ (run L s ops).users.map (fun u => u.email), normEmail L e = e := by
  induction ops generalizing s with
  | nil => exact ⟨hnd, hnorm⟩
  | cons op ops ih =>
    have h := handle_preserves L s op hnd hnorm
    exact ih (handle L s op).2 h.1 h.2

theorem register_found (L : Lib) (env : Env) (s : Store) (req : RegisterReq) (w : User)
    (hf : findOneByEmail L s.users req.email = .found w) :
    register L env s req = (⟨400, message "Email already in use."⟩, s) := by
  simp [register, hf]

theorem run_emails_grow (L : Lib) (ops : List Op) (s : Store) (e : String)
    (h : e ∈ s.users.map (fun u => u.email)) :
    e ∈ (run L s ops).users.map (fun u => u.email) := by
  induction ops generalizing s with
  | nil => exact h
  | cons op ops ih =>
    apply ih (handle L s op).2
    rcases handle_emails L s op with h2 | ⟨u, em, hus, _, _⟩
    · rw [h2]
      exact h
    · rw [hus, List.map_append]
      exact List.mem_append_left _ h

/-- C10: from the empty store, after any finite sequence of requests to the
five routes handled one at a time, the stored emails are pairwise different,
every stored email is lowercased and trimmed (the setters leave it as it is),
and no two stored users have emails that agree after lowercasing and
trimming.  In terms of the requests: once a registration carrying the string
`e1` has been answered 201, then after any further requests a registration
carrying a string `e2` that is `e1` up to case and surrounding white space is
answered 400 "Email already in use." and adds no user. -/
theorem run_one_user_per_email (L : Lib) (ops : List Op) :
    ((run L Store.empty ops).users.map (fun u => u.email)).Nodup ∧
    (∀ u ∈ (run L Store.empty ops).users, trim (L.toLowerCase u.email) = u.email) ∧
    (run L Store.empty ops).users.Pairwise
      (fun u v => trim (L.toLowerCase u.email) ≠ trim (L.toLowerCase v.email)) ∧
    (∀ (later : List Op) (env1 env2 : Env) (r1 r2 : RegisterReq) (e1 e2 : String),
      r1.email = some (.str e1) → r2.email = some (.str e2) →
      trim (L.toLowerCase e1) = trim (L.toLowerCase e2) →
      (register L env1 (run L Store.empty ops) r1).1.status = 201 →
      register L env2 (run L (register L env1 (run L Store.empty ops) r1).2 later) r2 =
        (⟨400, message "Email already in use."⟩,
         run L (register L env1 (run L Store.empty ops) r1).2 later)) := by
  have h := run_preserves L ops Store.empty (by simp [Store.empty]) (by simp [Store.empty])
  have hnorm : ∀ u ∈ (run L Store.empty ops).users, normEmail L u.email = u.email :=
    fun u hu => h.2 u.email (List.mem_map.2 ⟨u, hu, rfl⟩)
  refine ⟨h.1, hnorm, ?_, ?_⟩
  · have hp := List.pairwise_map.1 h.1
    refine List.Pairwise.imp_of_mem ?_ hp
    intro u v hu hv hne
    have h1 := hnorm u hu
    have h2 := hnorm v hv
    unfold normEmail at h1 h2
    rw [h1, h2]
    exact hne
  · intro later env1 env2 r1 r2 e1 e2 he1 he2 heq h201
    rcases register_cases L env1 (run L Store.empty ops) r1 with
      ⟨_, hno⟩ | ⟨u, em, _, hem, hue, _, _, _, _, _, hreg⟩
    · exact absurd h201 hno
    · have hem1 : em = e1 := by
        rw [he1, castField_str] at hem
        exact (Option.some.inj hem).symm
      have hin : normEmail L e2 ∈
          (register L env1 (run L Store.empty ops) r1).2.users.map (fun u => u.email) := by
        rw [hreg]
        simp only [List.map_append, List.map_cons, List.map_nil, List.mem_append,
          List.mem_singleton]
        right
        rw [hue, hem1]
        exact heq.symm
      have hlater := run_emails_grow L later _ _ hin
      obtain ⟨v, hv, hve⟩ := List.mem_map.1 hlater
      cases hf : findOneByEmail L
          (run L (register L env1 (run L Store.empty ops) r1).2 later).users r2.email with
      | threw =>
        rw [he2] at hf
        exact absurd hf (findOneByEmail_str L _ e2).2.2
      | nothing =>
        rw [he2] at hf
        exact absurd hve ((findOneByEmail_str L _ e2).1.1 hf v hv)
      | found w => exact register_found L env2 _ r2 w hf

theorem run_one_user_per_email_witness :
    (register sampleLib sampleEnv Store.empty
      (regReq "bob" " Bob@Example.com " "hunter2" none)).1.status = 201 ∧
    register sampleLib sampleEnv
      (run sampleLib
        (register sampleLib sampleEnv Store.empty
          (regReq "bob" " Bob@Example.com " "hunter2" none)).2
        [Op.getUsers])
      (regReq "robert" "bob@example.com" "other" none) =
      (⟨400, message "Email already in use."⟩,
       run sampleLib
        (register sampleLib sampleEnv Store.empty
          (regReq "bob" " Bob@Example.com " "hunter2" none)).2
        [Op.getUsers]) :=
  ⟨by decide,
   (run_one_user_per_email sampleLib []).2.2.2 [Op.getUsers] sampleEnv sampleEnv
     (regReq "bob" " Bob@Example.com " "hunter2" none)
     (regReq "robert" "bob@example.com" "other" none)
     " Bob@Example.com " "bob@example.com" rfl rfl (by decide) (by decide)⟩

end RBAC
